import Mathlib

/-!
Verification development for the innovativewear-scraper repository.

The repository drives a product page, selects color-variant swatches matching a
caller wish-list, resolves a high-resolution photo URL per variant, downloads
the bytes and packs them into an in-memory zip archive together with a run
report.  This file gives a shallow embedding of the pure/decidable core of that
pipeline, translated from `src/iw_scraper.py` (the module actually imported by
`src/app.py`) and, for the synonym-cluster color matcher, from `src/scraper.py`
(the only module of the repository that defines the synonym table).

Modelling conventions:
* Python strings are `List Char` (`Str` below); byte strings are also `Str`.
* The browser/network environment is explicit data: each swatch record carries
  the outcome of clicking its handle (`clickOk`, the exception name/text when
  the click raises) and the main-gallery photo URL observed after the click and
  the fixed wait (already resolved against the product URL, as
  `_get_main_photo_url` does with `urljoin`; the empty string models the
  missing/empty `src` attribute).  HTTP is a record of response functions
  (`none` models a raised exception).
* Regular-expression operations of the source are implemented character by
  character with the same scan order (leftmost match, no rescanning of the
  replacement), on the ASCII fragment exercised by the site's URLs and labels.
* The debug trace is modelled for the selection loop and the per-target loop
  (the lines produced inside `scrape_images_with_login_sync`'s click loop and
  by the swatch-selection code); trace lines of the login/setup phase are
  outside the modelled fragment and irrelevant to every claim.
-/

namespace IWScraper

/-- Python strings (and byte strings) are modelled as lists of characters. -/
abbrev Str := List Char

/-- The apostrophe character, used by the source's f-string WARNING message. -/
def quoteChar : Char := Char.ofNat 39

/-- Characters matched by Python's `\s` (ASCII fragment). -/
def isPySpace (c : Char) : Bool :=
  c == ' ' || c == '\t' || c == '\n' || c == '\r' || c == '\x0b' || c == '\x0c'

/-- Python `str.strip()`. -/
def stripWS (s : Str) : Str :=
  (((s.dropWhile isPySpace).reverse).dropWhile isPySpace).reverse

/-- Replace every maximal run of whitespace by a single space, as
`re.sub(r"\s+", " ", s)` does.  The flag records whether the previous
character belonged to a whitespace run already replaced. -/
def collapseAux : Str → Bool → Str
  | [], _ => []
  | c :: rest, prevWS =>
    if isPySpace c then
      if prevWS then collapseAux rest true else ' ' :: collapseAux rest true
    else c :: collapseAux rest false

/-- `re.sub(r"\s+", " ", s)`. -/
def collapseWS (s : Str) : Str := collapseAux s false

/-- `_norm` of `iw_scraper.py`: `re.sub(r"\s+", " ", (s or "").strip().lower())`. -/
def _norm (s : Str) : Str := collapseWS ((stripWS s).map Char.toLower)

/-- Accent folding performed by `_normalize_color_name` of `scraper.py`
(six lowercase accented vowels replaced by their base letter). -/
def foldAccent (c : Char) : Char :=
  if c == 'à' then 'a'
  else if c == 'è' then 'e'
  else if c == 'é' then 'e'
  else if c == 'ì' then 'i'
  else if c == 'ò' then 'o'
  else if c == 'ù' then 'u'
  else c

/-- `_normalize_color_name` of `scraper.py`: strip, lowercase, collapse
whitespace, fold accents. -/
def _normalize_color_name (s : Str) : Str :=
  (collapseWS ((stripWS s).map Char.toLower)).map foldAccent

/-- Whether `needle` occurs at the head of `hay`. -/
def substrAt : Str → Str → Bool
  | [], _ => true
  | _ :: _, [] => false
  | a :: as, b :: bs => a == b && substrAt as bs

/-- Python's substring test `needle in hay`. -/
def pyIn : Str → Str → Bool
  | needle, [] => substrAt needle []
  | needle, hay@(_ :: bs) => substrAt needle hay || pyIn needle bs

/-- One on-page color-variant control, as read by `_extract_color_swatch_map`,
together with the interaction outcomes of its page handle (the environment of
the click loop, made explicit data): whether `handle.click()` succeeds, the
exception name/text when it raises, and the absolute main-gallery photo URL
observed after clicking it (empty when the `src` attribute is missing/empty). -/
structure Swatch where
  title : Str
  data_color : Str
  code_text : Str
  clickOk : Bool
  clickErrName : Str
  clickErrText : Str
  mainUrl : Str
deriving DecidableEq

/-- `_match_swatch` of `iw_scraper.py`: with an empty wish-list every swatch
matches; otherwise some wanted entry equals the normalized machine code or the
normalized secondary code text, or is contained in the normalized title. -/
def _match_swatch (it : Swatch) (wanted_norm : List Str) : Bool :=
  if wanted_norm.isEmpty then true
  else
    let t := _norm it.title
    let dc := _norm it.data_color
    let ct := _norm it.code_text
    wanted_norm.any fun w =>
      (!w.isEmpty && (w == dc || w == ct)) || (!w.isEmpty && pyIn w t)

/-- The strong per-spec match used inline by the `ordered_to_click` loop of
`scrape_images_with_login_sync`: exact normalized code, exact normalized
secondary code text, or containment in the normalized title. -/
def strongMatch (w : Str) (it : Swatch) : Bool :=
  w == _norm it.data_color || w == _norm it.code_text || pyIn w (_norm it.title)

/-- The f-string `WARNING: no swatch matched '{w}'` appended to the debug
trace for an unmatched wanted spec. -/
def warnNoMatch (w : Str) : Str :=
  ("WARNING: no swatch matched ".data) ++ quoteChar :: (w ++ [quoteChar])

/-- The `ordered_to_click` construction for a non-empty wish-list: for each
wanted spec, in caller order, the first swatch in page order satisfying the
strong match is appended; an unmatched spec contributes a WARNING debug line
instead.  Returns the ordered click list and the debug lines, in order. -/
def selectLoop (items : List Swatch) : List Str → List Swatch × List Str
  | [] => ([], [])
  | w :: ws =>
    let rest := selectLoop items ws
    match items.find? (fun it => strongMatch w it) with
    | some it => (it :: rest.1, rest.2)
    | none => (rest.1, warnNoMatch w :: rest.2)

/-- Target selection of `scrape_images_with_login_sync`: with a non-empty
normalized wish-list, the per-spec loop above; with an empty one, every swatch
accepted by `_match_swatch` (i.e. all of them). -/
def selectionOf (wanted_norm : List Str) (items : List Swatch) :
    List Swatch × List Str :=
  if wanted_norm.isEmpty then
    (items.filter (fun it => _match_swatch it wanted_norm), [])
  else selectLoop items wanted_norm

/-- The ordered list of click targets. -/
def orderedToClick (wanted_norm : List Str) (items : List Swatch) : List Swatch :=
  (selectionOf wanted_norm items).1

/-- `[_norm(x) for x in (wanted_colors or []) if _norm(x)]`. -/
def wantedNorm (wanted : List Str) : List Str :=
  (wanted.map _norm).filter (fun w => !w.isEmpty)

/-! ## The synonym-cluster color matcher (`scraper.py`) -/

/-- Synonyms registered for the family "nero". -/
def neroSyns : List Str := [("nero".data), ("black".data), ("noir".data), ("schwarz".data)]

/-- Synonyms registered for the family "bianco". -/
def biancoSyns : List Str := [("bianco".data), ("white".data), ("blanc".data), ("weiss".data)]

/-- Synonyms registered for the family "rosso". -/
def rossoSyns : List Str :=
  [("rosso".data), ("red".data), ("rouge".data), ("rot".data), ("bordeaux".data),
   ("burgundy".data)]

/-- Synonyms registered for the family "blu navy". -/
def navySyns : List Str :=
  [("navy".data), ("blu navy".data), ("blu notte".data), ("midnight".data), ("marine".data),
   ("dark blue".data)]

/-- Synonyms registered for the family "blu royal". -/
def royalSyns : List Str :=
  [("royal".data), ("blu royal".data), ("royal blue".data), ("blu reale".data),
   ("electric blue".data), ("azzurro royal".data)]

/-- Synonyms registered for the family "grigio". -/
def grigioSyns : List Str :=
  [("grigio".data), ("grey".data), ("gray".data), ("antracite".data), ("anthracite".data),
   ("charcoal".data), ("melange".data), ("mélange".data)]

/-- The `synonyms` dict of `_wanted_color_match` in `scraper.py`, as an
association list (its keys are distinct). -/
def synonymsTable : List (Str × List Str) :=
  [(("nero".data), neroSyns), (("bianco".data), biancoSyns), (("rosso".data), rossoSyns),
   (("blu navy".data), navySyns), (("blu royal".data), royalSyns),
   (("grigio".data), grigioSyns)]

/-- `synonyms.get(w, [])`. -/
def synLookup (w : Str) : List Str :=
  ((synonymsTable.find? (fun p => p.1 == w)).map (fun p => p.2)).getD []

/-- `_wanted_color_match` of `scraper.py`: the normalized label matches when
some normalized wanted entry is contained in it, or some synonym registered
for that entry's family is contained in it. -/
def _wanted_color_match (color_label : Str) (wanted : List Str) : Bool :=
  let c := _normalize_color_name color_label
  (wanted.map _normalize_color_name).any fun w =>
    pyIn w c || (synLookup w).any (fun syn => pyIn syn c)

/-! ## High-resolution URL candidates (`_best_image_url_candidates`) -/

/-- ASCII decimal digit, Python `\d` on the site's URLs. -/
def isDigitCh (c : Char) : Bool := '0' ≤ c && c ≤ '9'

/-- Match `\d+x\d+-` at the head of `l`; on success return the remainder.
Both digit classes are disjoint from their follower characters, so the greedy
`\d+` of the source regex is maximal munch without backtracking. -/
def parseDxD (l : Str) : Option Str :=
  let ds := l.takeWhile isDigitCh
  let r1 := l.dropWhile isDigitCh
  if ds.isEmpty then none
  else
    match r1 with
    | 'x' :: r2 =>
      let ds2 := r2.takeWhile isDigitCh
      let r3 := r2.dropWhile isDigitCh
      if ds2.isEmpty then none
      else
        match r3 with
        | '-' :: r4 => some r4
        | _ => none
    | _ => none

/-- Match `/opt-\d+x\d+-` at the head. -/
def parseOptAt : Str → Option Str
  | '/' :: 'o' :: 'p' :: 't' :: '-' :: rest => parseDxD rest
  | _ => none

/-- Match `/\d+x\d+-` at the head. -/
def parseSizeAt : Str → Option Str
  | '/' :: rest => parseDxD rest
  | _ => none

/-- `re.sub(pattern, "/", s)` for a pattern recognised by `pat`: scan left to
right, replace each non-overlapping match by one slash, never rescanning the
replacement.  Fuel equals the input length, which every step strictly
decreases (a match consumes at least the pattern's literal characters). -/
def subPatFuel (pat : Str → Option Str) : Nat → Str → Str
  | 0, l => l
  | _ + 1, [] => []
  | n + 1, c :: rest =>
    match pat (c :: rest) with
    | some r => '/' :: subPatFuel pat n r
    | none => c :: subPatFuel pat n rest

/-- `re.sub(r"/opt-\d+x\d+-", "/", s)`. -/
def subOpt (l : Str) : Str := subPatFuel parseOptAt l.length l

/-- `re.sub(r"/\d+x\d+-", "/", s)`. -/
def subSize (l : Str) : Str := subPatFuel parseSizeAt l.length l

/-- Order-preserving deduplication (the `seen`-set loop closing
`_best_image_url_candidates`). -/
def dedupGo : List Str → List Str → List Str
  | _, [] => []
  | seen, u :: rest =>
    if u ∈ seen then dedupGo seen rest else u :: dedupGo (u :: seen) rest

/-- `_best_image_url_candidates` of `iw_scraper.py`: start from the photo URL,
push the `opt-WxH-`-stripped form in front when it differs, push the
`WxH-`-stripped form in front when it is new, then deduplicate preserving
order. -/
def _best_image_url_candidates (img_url : Str) : List Str :=
  if img_url.isEmpty then []
  else
    let cands0 := [img_url]
    let c2 := subOpt img_url
    let cands1 := if c2 = img_url then cands0 else c2 :: cands0
    let c3 := subSize img_url
    let cands2 := if c3 ∈ cands1 then cands1 else c3 :: cands1
    dedupGo [] cands2

/-! ## Existence probing, download, packaging -/

/-- The plain-HTTP environment seen through the bridged `requests` session.
`headStatus`/`getStreamStatus` give the status of a HEAD / streamed GET probe
(`none` models a raised exception, swallowed by the probe loops).  `get` gives
status, body bytes and declared content type of a full GET (`none` models a
raised exception) and `getErrName` the exception's type name in that case. -/
structure Http where
  headStatus : Str → Option Nat
  getStreamStatus : Str → Option Nat
  get : Str → Option (Nat × Str × Str)
  getErrName : Str → Str

/-- Success of a HEAD probe, as tested by the first loop of
`_pick_best_existing_url` (`status_code == 200`). -/
def headOk (h : Http) (u : Str) : Bool := h.headStatus u == some 200

/-- Success of a streamed-GET probe, as tested by the second loop. -/
def getOk (h : Http) (u : Str) : Bool := h.getStreamStatus u == some 200

/-- The first loop of `_pick_best_existing_url`: HEAD every candidate in list
order, return the first one answering 200; exceptions and other statuses are
skipped. -/
def headLoop (h : Http) : List Str → Option Str
  | [] => none
  | u :: rest => if headOk h u then some u else headLoop h rest

/-- The second loop: streamed GET over every candidate in list order. -/
def getLoop (h : Http) : List Str → Option Str
  | [] => none
  | u :: rest => if getOk h u then some u else getLoop h rest

/-- `_pick_best_existing_url` of `iw_scraper.py`: a full HEAD pass, then a
full streamed-GET pass, then `candidates[-1] if candidates else ""`. -/
def _pick_best_existing_url (h : Http) (candidates : List Str) : Str :=
  match headLoop h candidates with
  | some u => u
  | none =>
    match getLoop h candidates with
    | some u => u
    | none =>
      match candidates.getLast? with
      | some u => u
      | none => []

/-- Decimal rendering of a Nat (Python's `str`/f-string interpolation). -/
def natToChars (n : Nat) : Str := (Nat.repr n).data

/-- The f-string reason `HTTP {status}`. -/
def httpErr (st : Nat) : Str := ("HTTP ".data) ++ natToChars st

/-- `_download_bytes` of `iw_scraper.py`: `(None, "HTTP {status}")` on a
non-200 status or an empty body, `(None, exception name)` on a raised
exception, `(bytes, "")` otherwise.  The declared content type of the
response is ignored, exactly as the source ignores everything but
`r.status_code` and `r.content`. -/
def _download_bytes (h : Http) (url : Str) : Option Str × Str :=
  match h.get url with
  | none => (none, h.getErrName url)
  | some (st, body, _) =>
    if st ≠ 200 ∨ body.isEmpty then (none, httpErr st) else (some body, [])

/-! ## File names, labels, extensions -/

/-- Characters kept by `_clean_filename`'s class `[\w\-.]` (ASCII fragment of
Python's unicode `\w`). -/
def isGoodFileChar (c : Char) : Bool :=
  c.isAlpha || c.isDigit || c == '_' || c == '-' || c == '.'

/-- Replace every maximal run of characters outside `[\w\-.]` by a single
underscore (`re.sub(r"[^\w\-.]+", "_", s)`). -/
def cleanAux : Str → Bool → Str
  | [], _ => []
  | c :: rest, prevBad =>
    if isGoodFileChar c then c :: cleanAux rest false
    else if prevBad then cleanAux rest true
    else '_' :: cleanAux rest true

/-- `_clean_filename` of `iw_scraper.py`: strip, collapse bad runs to `_`,
truncate to 180 characters, defaulting to "file" on an empty result. -/
def _clean_filename (name : Str) : Str :=
  let s := cleanAux (stripWS name) false
  if s.isEmpty then ("file".data) else s.take 180

/-- The label assignment of the click loop:
`label = code_text or data_color or title or f"color_{k}"` (Python `or`
takes the first non-empty string). -/
def labelOf (it : Swatch) (k : Nat) : Str :=
  if !it.code_text.isEmpty then it.code_text
  else if !it.data_color.isEmpty then it.data_color
  else if !it.title.isEmpty then it.title
  else ("color_".data) ++ natToChars k

/-- The extension alternatives of the regex `\.(jpg|jpeg|png|webp|gif)(\?|$)`,
in the source's alternation order. -/
def extAlts : List Str :=
  [("jpg".data), ("jpeg".data), ("png".data), ("webp".data), ("gif".data)]

/-- Whether one alternative matches (case-insensitively) right here, followed
by `?` or the end of the string. -/
def altHere (rest : Str) (alt : Str) : Bool :=
  ((rest.take alt.length).map Char.toLower) == alt &&
  (match rest.drop alt.length with
   | [] => true
   | c :: _ => c == '?')

/-- Try the whole extension pattern at the current position; on success return
the matched alternative, already lowercased. -/
def extAt : Str → Option Str
  | '.' :: rest => extAlts.find? (altHere rest)
  | _ => none

/-- `re.search` of the extension pattern: leftmost position wins. -/
def searchExt : Str → Option Str
  | [] => none
  | c :: rest =>
    match extAt (c :: rest) with
    | some a => some a
    | none => searchExt rest

/-- `.replace("jpeg", "jpg")` applied to a matched alternative. -/
def jpegFix (a : Str) : Str := if a = ("jpeg".data) then ("jpg".data) else a

/-- The extension computation of the click loop: `.jpg` by default, else a dot
followed by the lowercased matched group with `jpeg` normalised to `jpg`. -/
def extOf (url : Str) : Str :=
  match searchExt url with
  | some a => '.' :: jpegFix a
  | none => (".jpg".data)

/-- The f-string `{k:02d}` (zero-padded to width 2). -/
def pad2 (k : Nat) : Str := if k < 10 then '0' :: natToChars k else natToChars k

/-! ## The per-target click/download loop -/

/-- The run-report state threaded through the click loop: the four report
lists of `ScrapeResult` plus the zip entries written so far (entry name and
bytes, in write order). -/
structure LoopState where
  found : List Str
  ok : List Str
  failed : List Str
  debug : List Str
  zipEntries : List (Str × Str)
deriving DecidableEq

/-- Quoted interpolation `'{s}'` as in the source's f-strings. -/
def q (s : Str) : Str := quoteChar :: (s ++ [quoteChar])

/-- Debug line `[{k}] Click swatch: title='{t}' data-color='{dc}' code='{ct}'`. -/
def clickMsg (k : Nat) (it : Swatch) : Str :=
  ("[".data) ++ natToChars k ++ ("] Click swatch: title=".data) ++ q it.title ++
  (" data-color=".data) ++ q it.data_color ++ (" code=".data) ++ q it.code_text

/-- Debug line `[{k}] ERROR click: {name}: {e}`. -/
def errClickMsg (k : Nat) (it : Swatch) : Str :=
  ("[".data) ++ natToChars k ++ ("] ERROR click: ".data) ++ it.clickErrName ++
  (": ".data) ++ it.clickErrText

/-- Failure entry `{label} (click failed: {name})`. -/
def failedClickEntry (label : Str) (it : Swatch) : Str :=
  label ++ (" (click failed: ".data) ++ it.clickErrName ++ (")".data)

/-- Debug line of `_wait_after_color_change`. -/
def waitMsg (seconds : Nat) : Str :=
  ("Wait after click: ".data) ++ natToChars seconds ++ ("s".data)

/-- Debug line of `_get_main_photo_url` for a non-empty source. -/
def mainPhotoMsg (u : Str) : Str := ("Main photo src: ".data) ++ u

/-- Failure entry `{label} (main image not found)`. -/
def failedMainEntry (label : Str) : Str := label ++ (" (main image not found)".data)

/-- Debug line `[{k}] Best candidate: {best}`. -/
def bestMsg (k : Nat) (best : Str) : Str :=
  ("[".data) ++ natToChars k ++ ("] Best candidate: ".data) ++ best

/-- Failure entry `{best} ({err})`. -/
def failedDlEntry (best : Str) (err : Str) : Str :=
  best ++ (" (".data) ++ err ++ (")".data)

/-- One iteration of the click loop of `scrape_images_with_login_sync`
(target number `k`, 1-based): click, wait, read the main photo, resolve the
best candidate, download, write the zip entry — recording the per-item failure
and continuing on a failed click, a missing main image or a failed download. -/
def processTarget (h : Http) (waitS : Nat) (k : Nat) (it : Swatch)
    (st : LoopState) : LoopState :=
  let label := labelOf it k
  let label_clean := _clean_filename label
  let st1 := { st with debug := st.debug ++ [clickMsg k it] }
  if it.clickOk then
    let st2 := { st1 with debug := st1.debug ++ [waitMsg waitS] }
    if it.mainUrl.isEmpty then
      { st2 with failed := st2.failed ++ [failedMainEntry label] }
    else
      let st3 := { st2 with debug := st2.debug ++ [mainPhotoMsg it.mainUrl],
                            found := st2.found ++ [it.mainUrl] }
      let best := _pick_best_existing_url h (_best_image_url_candidates it.mainUrl)
      let st4 := { st3 with debug := st3.debug ++ [bestMsg k best] }
      match _download_bytes h best with
      | (none, err) => { st4 with failed := st4.failed ++ [failedDlEntry best err] }
      | (some body, _) =>
        let ext := extOf best
        let filename := _clean_filename (pad2 k ++ ('_' :: label_clean) ++ ext)
        { st4 with zipEntries := st4.zipEntries ++ [(filename, body)],
                   ok := st4.ok ++ [best] }
  else
    { st1 with failed := st1.failed ++ [failedClickEntry label it],
               debug := st1.debug ++ [errClickMsg k it] }

/-- The click loop: `for k, it in enumerate(ordered_to_click, start=1)`. -/
def loopFrom (h : Http) (waitS : Nat) : Nat → LoopState → List Swatch → LoopState
  | _, st, [] => st
  | k, st, it :: rest => loopFrom h waitS (k + 1) (processTarget h waitS k it st) rest

/-- An initial run-report state whose debug trace already holds `dbg`. -/
def initState (dbg : List Str) : LoopState := ⟨[], [], [], dbg, []⟩

/-- The post-login portion of `scrape_images_with_login_sync`: normalise the
wish-list, select the ordered click targets, then run the click loop starting
from the selection's debug lines. -/
def runAfterLogin (h : Http) (waitS : Nat) (wanted : List Str)
    (items : List Swatch) : LoopState :=
  let wn := wantedNorm wanted
  loopFrom h waitS 1 (initState (selectionOf wn items).2) (selectionOf wn items).1

/-! ## Scenario constants -/

/-- Scenario A wish-list: `["CR", "Classic Red"]`. -/
def scenarioASpecs : List Str := [("CR".data), ("Classic Red".data)]

/-- Scenario A first control: code `CR`, title `Classic Red (CR)`. -/
def crSwatch : Swatch := ⟨("Classic Red (CR)".data), ("CR".data), [], true, [], [], []⟩

/-- Scenario A second control: code `FN`, title `French Navy`. -/
def fnSwatch : Swatch := ⟨("French Navy".data), ("FN".data), [], true, [], [], []⟩

/-- Scenario A page, in page order. -/
def scenarioAItems : List Swatch := [crSwatch, fnSwatch]

/-! ## Spec-modelled rules and concrete probe environments used by the claims -/

/-- Modelled from the spec: the label precedence it states — machine code
(`data-color`) first, then secondary code text, then display title, then the
synthetic placeholder `color_N`. -/
def specLabelPrecedence (it : Swatch) (k : Nat) : Str :=
  if !it.data_color.isEmpty then it.data_color
  else if !it.code_text.isEmpty then it.code_text
  else if !it.title.isEmpty then it.title
  else ("color_".data) ++ natToChars k

/-- First non-empty string of a list, with a default: the reading of Python's
`a or b or c or d` chain used by the amended claim. -/
def firstNonEmpty : List Str → Str → Str
  | [], d => d
  | x :: xs, d => if x.isEmpty then firstNonEmpty xs d else x

/-- The amended label rule: secondary code text first, then machine code,
then display title, then the synthetic placeholder. -/
def labelAmended (it : Swatch) (k : Nat) : Str :=
  firstNonEmpty [it.code_text, it.data_color, it.title] (("color_".data) ++ natToChars k)

/-- A control carrying both a machine code and a secondary code text,
distinguishing the two precedence orders. -/
def c3Swatch : Swatch :=
  ⟨("Royal Blue".data), ("RB".data), ("NV".data), true, [], [], ("/m/p.jpg".data)⟩

/-- An HTTP environment in which every probe succeeds and the full GET of any
URL returns status 200 with body "B" and content type image/jpeg. -/
def httpAllOk : Http :=
  ⟨fun _ => some 200, fun _ => some 200,
   fun _ => some (200, (("B".data), ("image/jpeg".data))), fun _ => []⟩

/-- Modelled from the spec: per-candidate interleaved probing — for each
candidate in order try HEAD, then (if HEAD did not succeed) the streamed GET
for that same candidate, and select the first candidate succeeding by either
method. -/
def specInterleavedPick (h : Http) : List Str → Option Str
  | [] => none
  | u :: rest =>
    if headOk h u then some u
    else if getOk h u then some u
    else specInterleavedPick h rest

/-- First probe URL of the C5 counterexample. -/
def urlA : Str := ("/m/a.jpg".data)

/-- Second probe URL of the C5 counterexample. -/
def urlB : Str := ("/m/b.jpg".data)

/-- An HTTP environment where `urlA` rejects HEAD but answers the streamed
GET with 200, while `urlB` answers HEAD with 200. -/
def http5 : Http :=
  ⟨fun u => if u = urlA then some 404 else if u = urlB then some 200 else none,
   fun u => if u = urlA then some 200 else none,
   fun _ => none, fun _ => []⟩

/-- Scenario B photo URL. -/
def scenarioBUrl : Str := ("/media/x/opt-490x735-rj265m.jpg".data)

/-- Scenario B expected first candidate. -/
def scenarioBStripped : Str := ("/media/x/rj265m.jpg".data)

/-- Modelled from the spec: map a declared image content type to its file
extension. -/
def ctExt (t : Str) : Option Str :=
  if t = ("image/jpeg".data) then some (".jpg".data)
  else if t = ("image/png".data) then some (".png".data)
  else if t = ("image/webp".data) then some (".webp".data)
  else if t = ("image/gif".data) then some (".gif".data)
  else none

/-- Modelled from the spec: the extension rule the claim states — from the
response's declared content type when available, else from the URL's file
extension, else the generic default. -/
def specExtC7 (ct : Option Str) (url : Str) : Str :=
  match ct with
  | some t =>
    match ctExt t with
    | some e => e
    | none => extOf url
  | none => extOf url

/-- The C7 photo URL, carrying a `.jpg` URL extension. -/
def c7Url : Str := ("/m/p.jpg".data)

/-- The C7 target. -/
def c7Swatch : Swatch := ⟨("Black".data), ("BK".data), [], true, [], [], c7Url⟩

/-- An HTTP environment whose GET answers 200 with a declared content type of
image/png for every URL. -/
def http7 : Http :=
  ⟨fun _ => some 200, fun _ => some 200,
   fun _ => some (200, (("B".data), ("image/png".data))), fun _ => []⟩

/-- The amended extension rule, written over the suffix list: the leftmost
position carrying an extension token wins, else the default. -/
def extAmended (url : Str) : Str :=
  match url.tails.findSome? extAt with
  | some a => '.' :: jpegFix a
  | none => (".jpg".data)

/-- An HTTP environment identical to `http7` except for the declared content
type. -/
def http7b : Http :=
  ⟨fun _ => some 200, fun _ => some 200,
   fun _ => some (200, (("B".data), ("image/gif".data))), fun _ => []⟩

/-- An HTTP environment in which every request raises. -/
def http0 : Http := ⟨fun _ => none, fun _ => none, fun _ => none, fun _ => []⟩

/-- The per-item failure modes of one click-loop iteration: the click raises,
the main photo source is empty, or the download of the resolved best
candidate fails. -/
def failsAt (h : Http) (it : Swatch) : Prop :=
  it.clickOk = false ∨ it.mainUrl.isEmpty = true ∨
  (_download_bytes h
    (_pick_best_existing_url h (_best_image_url_candidates it.mainUrl))).1 = none

/-- A target whose click raises. -/
def badSwatch : Swatch :=
  ⟨("White".data), ("WH".data), [], false, ("TimeoutError".data),
   ("click timeout".data), ("/m/w.jpg".data)⟩

/-! ## C1: Scenario A target selection -/

/-- Claim C1 is false on the code: for wanted specs `["CR", "Classic Red"]`
against the Scenario A controls, the `ordered_to_click` loop appends the first
matching swatch once per wanted spec with no deduplication, so the CR control
is selected twice, not once. -/
theorem c1_counterexample :
    orderedToClick (wantedNorm scenarioASpecs) scenarioAItems = [crSwatch, crSwatch] ∧
    ¬ orderedToClick (wantedNorm scenarioASpecs) scenarioAItems = [crSwatch] := by
  decide

/-- Claim C1 as amended: each of the two wanted specs selects the first
control in page order that matches it — the CR control both times — so the
ordered click list is the CR control repeated twice, and the FN control is
never selected. -/
theorem c1_amended :
    orderedToClick (wantedNorm scenarioASpecs) scenarioAItems = [crSwatch, crSwatch] ∧
    fnSwatch ∉ orderedToClick (wantedNorm scenarioASpecs) scenarioAItems := by
  decide

/-! ## C2: synonym-cluster matching -/

/-- Every key of the synonym table is a fixed point of normalization. -/
lemma table_key_norm (w : Str) (syns : List Str) (h : (w, syns) ∈ synonymsTable) :
    _normalize_color_name w = w := by
  simp only [synonymsTable, List.mem_cons, List.not_mem_nil, or_false,
    Prod.mk.injEq] at h
  rcases h with ⟨rfl, -⟩ | ⟨rfl, -⟩ | ⟨rfl, -⟩ | ⟨rfl, -⟩ | ⟨rfl, -⟩ | ⟨rfl, -⟩ <;> decide

/-- `synonyms.get` returns the registered list of each table entry. -/
lemma table_synLookup (w : Str) (syns : List Str) (h : (w, syns) ∈ synonymsTable) :
    synLookup w = syns := by
  simp only [synonymsTable, List.mem_cons, List.not_mem_nil, or_false,
    Prod.mk.injEq] at h
  rcases h with ⟨rfl, rfl⟩ | ⟨rfl, rfl⟩ | ⟨rfl, rfl⟩ | ⟨rfl, rfl⟩ | ⟨rfl, rfl⟩ |
    ⟨rfl, rfl⟩ <;> decide

/-- Claim C2: for a spec that is a registered canonical color family, a
control label whose normalization contains any synonym of that family
matches; conversely, a spec whose normalized text is absent from the label
and none of whose family synonyms occur in the label does not match
(`_wanted_color_match` of `scraper.py`, called with the one spec). -/
theorem c2_synonym_match (w : Str) (syns : List Str) (c : Str) :
    ((w, syns) ∈ synonymsTable →
      ∀ syn ∈ syns, pyIn syn (_normalize_color_name c) = true →
        _wanted_color_match c [w] = true) ∧
    (pyIn (_normalize_color_name w) (_normalize_color_name c) = false →
      (∀ syn ∈ synLookup (_normalize_color_name w),
        pyIn syn (_normalize_color_name c) = false) →
      _wanted_color_match c [w] = false) := by
  constructor
  · intro hmem syn hsyn hin
    have hk := table_key_norm w syns hmem
    have hl := table_synLookup w syns hmem
    simp only [_wanted_color_match, List.map_cons, List.map_nil, List.any_cons,
      List.any_nil, Bool.or_false, hk, hl, Bool.or_eq_true, List.any_eq_true]
    exact Or.inr ⟨syn, hsyn, hin⟩
  · intro h1 h2
    simp only [_wanted_color_match, List.map_cons, List.map_nil, List.any_cons,
      List.any_nil, Bool.or_false, h1, Bool.false_or, List.any_eq_false]
    intro syn hsyn
    simp [h2 syn hsyn]

/-- Witness for C2: "Midnight Heather" matches the family "blu navy" through
the synonym "midnight", while "Pink" does not match it at all. -/
theorem c2_witness :
    _wanted_color_match ("Midnight Heather".data) [("blu navy".data)] = true ∧
    _wanted_color_match ("Pink".data) [("blu navy".data)] = false := by
  constructor
  · exact (c2_synonym_match ("blu navy".data) navySyns ("Midnight Heather".data)).1
      (by decide) ("midnight".data) (by decide) (by decide)
  · exact (c2_synonym_match ("blu navy".data) navySyns ("Pink".data)).2
      (by decide) (by decide)

/-! ## C3: label precedence -/

/-- Claim C3 is false on the code: when both a machine code and a secondary
code text are present, the code's `label = code_text or data_color or ...`
chain picks the secondary code text, while the claim's precedence picks the
machine code. -/
theorem c3_counterexample :
    labelOf c3Swatch 1 = ("NV".data) ∧
    specLabelPrecedence c3Swatch 1 = ("RB".data) ∧
    labelOf c3Swatch 1 ≠ specLabelPrecedence c3Swatch 1 := by
  decide

/-- The code's label chain equals the amended precedence. -/
lemma label_eq (it : Swatch) (k : Nat) : labelOf it k = labelAmended it k := by
  simp only [labelOf, labelAmended, firstNonEmpty]
  by_cases h1 : it.code_text.isEmpty <;> by_cases h2 : it.data_color.isEmpty <;>
    by_cases h3 : it.title.isEmpty <;> simp [h1, h2, h3]

/-- Claim C3 as amended: for a clicked target with a non-empty main photo URL
whose download succeeds, the emitted label follows the precedence secondary
code text, else machine code, else display title, else `color_N` — and the
zip entry written for the target is named from exactly that label. -/
theorem c3_amended (h : Http) (waitS k : Nat) (it : Swatch) (st : LoopState)
    (body : Str) :
    it.clickOk = true → it.mainUrl.isEmpty = false →
    _download_bytes h (_pick_best_existing_url h (_best_image_url_candidates it.mainUrl)) =
      (some body, []) →
    labelOf it k = labelAmended it k ∧
    (processTarget h waitS k it st).zipEntries = st.zipEntries ++
      [(_clean_filename (pad2 k ++ ('_' :: _clean_filename (labelAmended it k)) ++
          extOf (_pick_best_existing_url h (_best_image_url_candidates it.mainUrl))),
        body)] := by
  intro hc hm hd
  refine ⟨label_eq it k, ?_⟩
  simp only [processTarget, hc, if_true, hm, Bool.false_eq_true, if_false, hd,
    label_eq it k]

/-- Witness for C3 (amended) at a concrete successful target. -/
theorem c3_amended_witness :
    c3Swatch.clickOk = true ∧ c3Swatch.mainUrl.isEmpty = false ∧
    _download_bytes httpAllOk
        (_pick_best_existing_url httpAllOk (_best_image_url_candidates c3Swatch.mainUrl)) =
      (some ("B".data), []) ∧
    (processTarget httpAllOk 15 1 c3Swatch (initState [])).zipEntries =
      (initState []).zipEntries ++
      [(_clean_filename (pad2 1 ++ ('_' :: _clean_filename (labelAmended c3Swatch 1)) ++
          extOf (_pick_best_existing_url httpAllOk (_best_image_url_candidates c3Swatch.mainUrl))),
        ("B".data))] :=
  ⟨by decide, by decide, by decide,
    (c3_amended httpAllOk 15 1 c3Swatch (initState []) ("B".data)
      (by decide) (by decide) (by decide)).2⟩

/-! ## C4/C5/C6: candidate generation and existence probing -/

/-- The HEAD pass is the first-match search over the candidate list. -/
lemma headLoop_eq_find (h : Http) (l : List Str) :
    headLoop h l = l.find? (headOk h) := by
  induction l with
  | nil => rfl
  | cons u rest ih =>
    by_cases hu : headOk h u
    · simp [headLoop, hu, List.find?_cons_of_pos]
    · simp [headLoop, hu, List.find?_cons_of_neg, ih]

/-- The streamed-GET pass is the first-match search over the candidate list. -/
lemma getLoop_eq_find (h : Http) (l : List Str) :
    getLoop h l = l.find? (getOk h) := by
  induction l with
  | nil => rfl
  | cons u rest ih =>
    by_cases hu : getOk h u
    · simp [getLoop, hu, List.find?_cons_of_pos]
    · simp [getLoop, hu, List.find?_cons_of_neg, ih]

/-- Exhaustive shape of the candidate list of a non-empty photo URL: the
original URL is always the final element, preceded by the stripped forms that
differ from it (the `WxH-`-stripped form in front of the `opt-`-stripped
one). -/
lemma candidates_eq (u : Str) (hu : u.isEmpty = false) :
    (subOpt u = u ∧ subSize u = u ∧ _best_image_url_candidates u = [u]) ∨
    (subOpt u ≠ u ∧ (subSize u = subOpt u ∨ subSize u = u) ∧
      _best_image_url_candidates u = [subOpt u, u]) ∨
    (subOpt u = u ∧ subSize u ≠ u ∧
      _best_image_url_candidates u = [subSize u, u]) ∨
    (subOpt u ≠ u ∧ subSize u ≠ subOpt u ∧ subSize u ≠ u ∧
      _best_image_url_candidates u = [subSize u, subOpt u, u]) := by
  by_cases h2 : subOpt u = u
  · by_cases h3 : subSize u = u
    · exact Or.inl ⟨h2, h3, by
        simp [_best_image_url_candidates, hu, h2, h3, dedupGo]⟩
    · refine Or.inr (Or.inr (Or.inl ⟨h2, h3, ?_⟩))
      simp [_best_image_url_candidates, hu, h2, h3, dedupGo, Ne.symm h3]
  · by_cases h3 : subSize u = subOpt u ∨ subSize u = u
    · refine Or.inr (Or.inl ⟨h2, h3, ?_⟩)
      have hmem : subSize u ∈ [subOpt u, u] := by
        rcases h3 with h3 | h3 <;> simp [h3]
      simp [_best_image_url_candidates, hu, h2, hmem, dedupGo, Ne.symm h2]
    · push_neg at h3
      refine Or.inr (Or.inr (Or.inr ⟨h2, h3.1, h3.2, ?_⟩))
      have hmem : subSize u ∉ [subOpt u, u] := by simp [h3.1, h3.2]
      simp [_best_image_url_candidates, hu, h2, hmem, dedupGo, Ne.symm h2,
        Ne.symm h3.1, Ne.symm h3.2]

/-- Claim C4: for a non-empty photo URL, when every probe over the candidate
list fails (no HEAD and no streamed GET returns 200), the resolver still
returns the original photo URL — in particular never the empty string. -/
theorem c4_fallback (h : Http) (u : Str) :
    u ≠ [] →
    (∀ c ∈ _best_image_url_candidates u, headOk h c = false) →
    (∀ c ∈ _best_image_url_candidates u, getOk h c = false) →
    _pick_best_existing_url h (_best_image_url_candidates u) = u ∧
    _pick_best_existing_url h (_best_image_url_candidates u) ≠ [] := by
  intro hu hhead hget
  have hu2 : u.isEmpty = false := by
    cases u with
    | nil => exact absurd rfl hu
    | cons a l => rfl
  have hh : headLoop h (_best_image_url_candidates u) = none := by
    rw [headLoop_eq_find]
    exact List.find?_eq_none.mpr fun c hc => by simp [hhead c hc]
  have hg : getLoop h (_best_image_url_candidates u) = none := by
    rw [getLoop_eq_find]
    exact List.find?_eq_none.mpr fun c hc => by simp [hget c hc]
  have hlast : (_best_image_url_candidates u).getLast? = some u := by
    rcases candidates_eq u hu2 with ⟨-, -, hc⟩ | ⟨-, -, hc⟩ | ⟨-, -, hc⟩ | ⟨-, -, -, hc⟩ <;>
      simp [hc]
  constructor
  · simp [_pick_best_existing_url, hh, hg, hlast]
  · simp [_pick_best_existing_url, hh, hg, hlast, hu]

/-- Witness for C4: a URL with no stripping pattern and an HTTP environment
in which every request raises. -/
theorem c4_witness :
    (("/m/p.jpg".data) : Str) ≠ [] ∧
    _pick_best_existing_url (⟨fun _ => none, fun _ => none, fun _ => none, fun _ => []⟩)
      (_best_image_url_candidates ("/m/p.jpg".data)) = ("/m/p.jpg".data) :=
  ⟨by decide,
    (c4_fallback (⟨fun _ => none, fun _ => none, fun _ => none, fun _ => []⟩)
      ("/m/p.jpg".data) (by decide) (by decide) (by decide)).1⟩

/-! ## C5: probing order -/

/-- Claim C5 is false on the code: probing is not per-candidate interleaved.
With candidates `[urlA, urlB]` where `urlA` fails HEAD but would succeed the
streamed GET and `urlB` succeeds HEAD, the code's two-pass probing selects
`urlB`, whereas the claim's interleaved order selects `urlA`. -/
theorem c5_counterexample :
    _pick_best_existing_url http5 [urlA, urlB] = urlB ∧
    specInterleavedPick http5 [urlA, urlB] = some urlA ∧
    urlB ≠ urlA := by
  decide

/-- Claim C5 as amended: probing is two sequential passes — every candidate
is tried with HEAD in list order and the first answering 200 is selected;
only when no candidate succeeds via HEAD is a second pass made trying a
streamed GET per candidate in list order; if neither pass succeeds the last
candidate (or the empty string for an empty list) is returned. -/
theorem c5_two_pass (h : Http) (cands : List Str) :
    (∀ u, cands.find? (headOk h) = some u → _pick_best_existing_url h cands = u) ∧
    (cands.find? (headOk h) = none →
      (∀ u, cands.find? (getOk h) = some u → _pick_best_existing_url h cands = u) ∧
      (cands.find? (getOk h) = none →
        _pick_best_existing_url h cands = (cands.getLast?).getD [])) := by
  refine ⟨fun u hu => ?_, fun hh => ⟨fun u hu => ?_, fun hg => ?_⟩⟩
  · simp [_pick_best_existing_url, headLoop_eq_find, hu]
  · simp [_pick_best_existing_url, headLoop_eq_find, getLoop_eq_find, hh, hu]
  · simp only [_pick_best_existing_url, headLoop_eq_find, getLoop_eq_find, hh, hg]
    cases cands.getLast? <;> rfl

/-- Witness for C5 (amended): in the counterexample environment the HEAD pass
finds `urlB` first, so the resolver returns it. -/
theorem c5_two_pass_witness :
    [urlA, urlB].find? (headOk http5) = some urlB ∧
    _pick_best_existing_url http5 [urlA, urlB] = urlB :=
  ⟨by decide, (c5_two_pass http5 [urlA, urlB]).1 urlB (by decide)⟩

/-! ## C6: first candidate of a URL with a sizing infix -/

/-- Claim C6: when the photo URL contains a sizing infix matched by one of
the stripping patterns, the first element of the candidate list is an
infix-stripped form of the URL and differs from it; without any infix the
list is just the original URL; in particular for the Scenario B URL the
first candidate is the `opt-WxH-`-stripped form. -/
theorem c6_first_candidate (u : Str) :
    (u ≠ [] → subOpt u ≠ u ∨ subSize u ≠ u →
      ∃ v, (_best_image_url_candidates u).head? = some v ∧ v ≠ u ∧
        (v = subOpt u ∨ v = subSize u)) ∧
    (u ≠ [] → subOpt u = u → subSize u = u → _best_image_url_candidates u = [u]) ∧
    (_best_image_url_candidates scenarioBUrl).head? = some scenarioBStripped := by
  refine ⟨fun hu hstrip => ?_, fun hu h2 h3 => ?_, by decide⟩
  · have hu2 : u.isEmpty = false := by
      cases u with
      | nil => exact absurd rfl hu
      | cons a l => rfl
    rcases candidates_eq u hu2 with ⟨h2, h3, -⟩ | ⟨h2, -, hc⟩ | ⟨-, h3, hc⟩ | ⟨-, -, h3, hc⟩
    · rcases hstrip with h | h
      · exact absurd h2 h
      · exact absurd h3 h
    · exact ⟨subOpt u, by simp [hc], h2, Or.inl rfl⟩
    · exact ⟨subSize u, by simp [hc], h3, Or.inr rfl⟩
    · exact ⟨subSize u, by simp [hc], h3, Or.inr rfl⟩
  · have hu2 : u.isEmpty = false := by
      cases u with
      | nil => exact absurd rfl hu
      | cons a l => rfl
    rcases candidates_eq u hu2 with ⟨-, -, hc⟩ | ⟨hne, -, -⟩ | ⟨-, hne, -⟩ | ⟨-, -, hne, -⟩
    · exact hc
    · exact absurd h2 hne
    · exact absurd h3 hne
    · exact absurd h3 hne

/-- Witness for C6 at the Scenario B URL. -/
theorem c6_witness :
    ∃ v, (_best_image_url_candidates scenarioBUrl).head? = some v ∧
      v ≠ scenarioBUrl ∧ (v = subOpt scenarioBUrl ∨ v = subSize scenarioBUrl) :=
  (c6_first_candidate scenarioBUrl).1 (by decide) (by decide)

/-! ## C7: file extension derivation -/

/-- Claim C7 is false on the code: the response declares content type
image/png, yet the zip entry written for the target is named with `.jpg`,
taken from the URL alone — the claim's content-type-first rule would give
`.png`. -/
theorem c7_counterexample :
    (processTarget http7 15 1 c7Swatch (initState [])).zipEntries =
      [((("01_BK.jpg".data) : Str), ("B".data))] ∧
    specExtC7 (some (("image/png".data)))
      (_pick_best_existing_url http7 (_best_image_url_candidates c7Url)) = (".png".data) ∧
    extOf (_pick_best_existing_url http7 (_best_image_url_candidates c7Url)) = (".jpg".data) ∧
    ((".jpg".data) : Str) ≠ (".png".data) := by
  decide

/-- The left-to-right scan of `re.search` equals the first hit over the
suffix list. -/
lemma searchExt_eq_tails (l : Str) : searchExt l = l.tails.findSome? extAt := by
  induction l with
  | nil => rfl
  | cons c rest ih =>
    rw [List.tails_cons]
    cases hx : extAt (c :: rest) with
    | some a =>
      rw [List.findSome?_cons_of_isSome _ (by simp [hx])]
      simp [searchExt, hx]
    | none =>
      rw [List.findSome?_cons_of_isNone _ (by simp [hx])]
      simp [searchExt, hx, ih]

/-- Claim C7 as amended: the archive entry's extension is derived from the
downloaded URL alone — the leftmost known image-extension token (lowercased,
`jpeg` normalised to `jpg`) followed by the end of the URL or a query mark,
else the generic `.jpg` — and the response's declared content type is never
consulted: downloads whose responses agree on status and body but differ in
content type are indistinguishable to the packager. -/
theorem c7_amended (url : Str) (h1 h2 : Http) (u : Str) :
    extOf url = extAmended url ∧
    ((h1.get u).map (fun r => (r.1, r.2.1)) = (h2.get u).map (fun r => (r.1, r.2.1)) →
      h1.getErrName u = h2.getErrName u →
      _download_bytes h1 u = _download_bytes h2 u) := by
  constructor
  · rw [extOf, extAmended, searchExt_eq_tails]
  · intro hsame herr
    cases hg1 : h1.get u with
    | none =>
      cases hg2 : h2.get u with
      | none => simp [_download_bytes, hg1, hg2, herr]
      | some r2 => rw [hg1, hg2] at hsame; simp at hsame
    | some r1 =>
      cases hg2 : h2.get u with
      | none => rw [hg1, hg2] at hsame; simp at hsame
      | some r2 =>
        rw [hg1, hg2] at hsame
        obtain ⟨s1, b1, t1⟩ := r1
        obtain ⟨s2, b2, t2⟩ := r2
        simp at hsame
        simp [_download_bytes, hg1, hg2, hsame.1, hsame.2]

/-- Witness for C7 (amended): two responses differing only in content type
yield the same download result. -/
theorem c7_witness :
    (http7.get c7Url).map (fun r => (r.1, r.2.1)) =
      (http7b.get c7Url).map (fun r => (r.1, r.2.1)) ∧
    _download_bytes http7 c7Url = _download_bytes http7b c7Url :=
  ⟨by decide, (c7_amended c7Url http7 http7b c7Url).2 (by decide) (by decide)⟩

/-! ## C8: unmatched specs -/

/-- Claim C8 is false on the code as to where the failure is recorded: a
wanted spec matching no control leaves the failed-items list of the run
empty — the only record is a WARNING line in the debug trace. -/
theorem c8_counterexample :
    (runAfterLogin http0 15 [("zz".data)] [crSwatch]).failed = [] ∧
    warnNoMatch ("zz".data) ∈ (runAfterLogin http0 15 [("zz".data)] [crSwatch]).debug := by
  decide

/-- Claim C8 as amended: a wanted spec with no matching control contributes
no click target, appends a WARNING line to the debug trace (not to the
failed-items list), and the remaining specs are processed exactly as they
would be without it. -/
theorem c8_amended (w : Str) (ws : List Str) (items : List Swatch) :
    items.find? (fun it => strongMatch w it) = none →
    selectLoop items (w :: ws) =
      ((selectLoop items ws).1, warnNoMatch w :: (selectLoop items ws).2) := by
  intro h
  simp [selectLoop, h]

/-- Witness for C8 (amended) at the spec "zz" against the Scenario A CR
control. -/
theorem c8_witness :
    [crSwatch].find? (fun it => strongMatch ("zz".data) it) = none ∧
    selectLoop [crSwatch] [("zz".data)] =
      ((selectLoop [crSwatch] []).1,
        warnNoMatch ("zz".data) :: (selectLoop [crSwatch] []).2) :=
  ⟨by decide, c8_amended ("zz".data) [] [crSwatch] (by decide)⟩

/-! ## C9/C10: the incremental archive -/

/-- One iteration never removes zip entries: it appends zero or one. -/
lemma step_zip_mono (h : Http) (waitS k : Nat) (it : Swatch) (st : LoopState) :
    st.zipEntries <+: (processTarget h waitS k it st).zipEntries := by
  by_cases hc : it.clickOk
  · by_cases hm : it.mainUrl.isEmpty
    · simp [processTarget, hc, hm]
    · rcases hdb : _download_bytes h
        (_pick_best_existing_url h (_best_image_url_candidates it.mainUrl)) with ⟨ob, err⟩
      cases ob with
      | none => simp [processTarget, hc, hm, hdb]
      | some body => simp [processTarget, hc, hm, hdb, List.prefix_append]
  · simp [processTarget, hc]

/-- The whole loop only extends the zip entries already written. -/
lemma loop_zip_mono (h : Http) (waitS : Nat) (ts : List Swatch) :
    ∀ k st, st.zipEntries <+: (loopFrom h waitS k st ts).zipEntries := by
  induction ts with
  | nil => intro k st; simp [loopFrom]
  | cons it rest ih =>
    intro k st
    exact (step_zip_mono h waitS k it st).trans (ih (k + 1) _)

/-- Splitting the loop at a list append. -/
lemma loop_append (h : Http) (waitS : Nat) (xs ys : List Swatch) :
    ∀ k st, loopFrom h waitS k st (xs ++ ys) =
      loopFrom h waitS (k + xs.length) (loopFrom h waitS k st xs) ys := by
  induction xs with
  | nil => intro k st; simp [loopFrom]
  | cons x xs ih =>
    intro k st
    rw [List.cons_append,
      show loopFrom h waitS k st (x :: (xs ++ ys)) =
        loopFrom h waitS (k + 1) (processTarget h waitS k x st) (xs ++ ys) from rfl,
      ih,
      show loopFrom h waitS k st (x :: xs) =
        loopFrom h waitS (k + 1) (processTarget h waitS k x st) xs from rfl,
      List.length_cons,
      show k + 1 + xs.length = k + (xs.length + 1) from by omega]

/-- A failing iteration leaves the zip entries untouched. -/
lemma step_fail_zip (h : Http) (waitS k : Nat) (it : Swatch) (st : LoopState)
    (hf : failsAt h it) :
    (processTarget h waitS k it st).zipEntries = st.zipEntries := by
  by_cases hc : it.clickOk
  · by_cases hm : it.mainUrl.isEmpty
    · simp [processTarget, hc, hm]
    · rcases hdb : _download_bytes h
        (_pick_best_existing_url h (_best_image_url_candidates it.mainUrl)) with ⟨ob, err⟩
      rcases hf with hf | hf | hf
      · rw [hc] at hf; cases hf
      · exact absurd hf (by simp [hm])
      · rw [hdb] at hf
        simp only at hf
        subst hf
        simp [processTarget, hc, hm, hdb]
  · simp [processTarget, hc]

/-- Claim C9: when the processing of one target fails (failed click, missing
main image, or failed download), that iteration leaves the zip entries
unchanged; the entries written for the targets processed before it are a
prefix of the final archive (neither removed nor altered), and processing up
to and including the failing target returns exactly the archive of the
successes before it. -/
theorem c9_archive_preserved (h : Http) (waitS : Nat) (pre : List Swatch)
    (it : Swatch) (post : List Swatch) :
    failsAt h it →
    (∀ k st, (processTarget h waitS k it st).zipEntries = st.zipEntries) ∧
    (loopFrom h waitS 1 (initState []) pre).zipEntries <+:
      (loopFrom h waitS 1 (initState []) (pre ++ it :: post)).zipEntries ∧
    (loopFrom h waitS 1 (initState []) (pre ++ [it])).zipEntries =
      (loopFrom h waitS 1 (initState []) pre).zipEntries := by
  intro hf
  refine ⟨fun k st => step_fail_zip h waitS k it st hf, ?_, ?_⟩
  · rw [loop_append]
    exact loop_zip_mono h waitS (it :: post) _ _
  · rw [loop_append]
    simp [loopFrom, step_fail_zip h waitS _ it _ hf]

/-- Witness for C9: a successful first target followed by a failing click. -/
theorem c9_witness :
    failsAt httpAllOk badSwatch ∧
    (loopFrom httpAllOk 15 1 (initState []) [c3Swatch]).zipEntries <+:
      (loopFrom httpAllOk 15 1 (initState []) ([c3Swatch] ++ badSwatch :: [])).zipEntries ∧
    (loopFrom httpAllOk 15 1 (initState []) ([c3Swatch] ++ [badSwatch])).zipEntries =
      (loopFrom httpAllOk 15 1 (initState []) [c3Swatch]).zipEntries :=
  ⟨Or.inl (by decide),
    (c9_archive_preserved httpAllOk 15 [c3Swatch] badSwatch []
      (Or.inl (by decide))).2.1,
    (c9_archive_preserved httpAllOk 15 [c3Swatch] badSwatch []
      (Or.inl (by decide))).2.2⟩

/-- Each iteration adds exactly one entry to exactly one of `ok`/`failed`,
and adds a zip entry exactly when it adds to `ok`. -/
lemma step_counts (h : Http) (waitS k : Nat) (it : Swatch) (st : LoopState) :
    (processTarget h waitS k it st).ok.length +
      (processTarget h waitS k it st).failed.length
      = st.ok.length + st.failed.length + 1 ∧
    (processTarget h waitS k it st).zipEntries.length + st.ok.length
      = (processTarget h waitS k it st).ok.length + st.zipEntries.length := by
  by_cases hc : it.clickOk
  · by_cases hm : it.mainUrl.isEmpty
    · simp [processTarget, hc, hm]
      omega
    · rcases hdb : _download_bytes h
        (_pick_best_existing_url h (_best_image_url_candidates it.mainUrl)) with ⟨ob, err⟩
      cases ob with
      | none =>
        simp [processTarget, hc, hm, hdb]
        omega
      | some body =>
        simp [processTarget, hc, hm, hdb]
        omega
  · simp [processTarget, hc]
    omega

/-- The loop-level counting invariant. -/
lemma loop_counts (h : Http) (waitS : Nat) (ts : List Swatch) :
    ∀ k st,
      (loopFrom h waitS k st ts).ok.length + (loopFrom h waitS k st ts).failed.length
        = st.ok.length + st.failed.length + ts.length ∧
      (loopFrom h waitS k st ts).zipEntries.length + st.ok.length
        = (loopFrom h waitS k st ts).ok.length + st.zipEntries.length := by
  induction ts with
  | nil =>
    intro k st
    simp [loopFrom]
    omega
  | cons it rest ih =>
    intro k st
    have hstep := step_counts h waitS k it st
    have hrest := ih (k + 1) (processTarget h waitS k it st)
    simp only [loopFrom, List.length_cons]
    omega

/-- The counting invariant, started from an initial state with empty result
lists. -/
lemma loop_counts_init (h : Http) (waitS : Nat) (ts : List Swatch) (dbg : List Str) :
    (loopFrom h waitS 1 (initState dbg) ts).ok.length +
      (loopFrom h waitS 1 (initState dbg) ts).failed.length = ts.length ∧
    (loopFrom h waitS 1 (initState dbg) ts).zipEntries.length =
      (loopFrom h waitS 1 (initState dbg) ts).ok.length := by
  have h2 := loop_counts h waitS ts 1 (initState dbg)
  have e1 : (initState dbg).ok = [] := rfl
  have e2 : (initState dbg).failed = [] := rfl
  have e3 : (initState dbg).zipEntries = [] := rfl
  rw [e1, e2, e3] at h2
  simp only [List.length_nil] at h2
  omega

/-- Claim C10: in a completed run every selected click target contributes one
entry to exactly one of the two result lists, so their lengths sum to the
number of selected targets, and the archive holds exactly one entry per
successful download. -/
theorem c10_partition (h : Http) (waitS : Nat) (wanted : List Str)
    (items : List Swatch) :
    (runAfterLogin h waitS wanted items).ok.length +
      (runAfterLogin h waitS wanted items).failed.length =
      (orderedToClick (wantedNorm wanted) items).length ∧
    (runAfterLogin h waitS wanted items).zipEntries.length =
      (runAfterLogin h waitS wanted items).ok.length := by
  have e : runAfterLogin h waitS wanted items =
      loopFrom h waitS 1 (initState (selectionOf (wantedNorm wanted) items).2)
        (selectionOf (wantedNorm wanted) items).1 := rfl
  rw [e, orderedToClick]
  exact loop_counts_init h waitS _ _

end IWScraper
